import Mathlib

/-!
Shallow embedding of the cbcli task registry/dispatcher.

Two source variants are embedded:
* namespace `Cbcli`  — src/cli.go (config gate, watchdog, goroutine/child dispatch);
* namespace `Part0`  — src/unnamed/part_000 (older exiting variant).

Calls to the external collaborators (Logger, ErrorHandler, cron engine,
process launcher) are recorded as an event trace; Go `error` values are
modelled by `GoError`, with the `TaskNotFound` sentinel a distinguished
constructor.  A Go panic that escapes a function is modelled by the
`Except.error` branch of the function's result.
-/

namespace Cbcli

/-- Go `error` values as they occur in this program: the distinguished
`TaskNotFound` sentinel (`errors.New("task not found")`) or an error built
with `fmt.Errorf`/other sources, identified by its message. -/
inductive GoError
  | taskNotFound
  | errorf (msg : String)
deriving DecidableEq, Repr

/-- Outcome of a task's `Run()`: a normal return carrying Go's `error`
result (`none` = nil = success), or a panic carrying the panic value. -/
inductive RunResult
  | ret (e : Option GoError)
  | panics (msg : String)
deriving DecidableEq, Repr

/-- One observable call to an external collaborator.
`infoF` records `logger.InfoF` after `fmt.Sprintf` formatting;
`runCall i` records an invocation of `Run()` on the task at registry
position `i`; `errorCall` records `errors.Error`; `recoverCall v` records
`errors.Recover()` with `v` the panic value in flight at that moment
(`none` when no panic is in flight, in which case Go's `recover()` yields
nil); `goWatchdog d` records spawning the watchdog goroutine for a task
declaring `GetErrorAfterDuration() = d` nanoseconds; `goSpawn` records
spawning the inline-execution goroutine; `addFunc spec` records
`crontab.AddFunc(spec, ...)`; `execCommand` records running
`exec.Command(path, args...)` with environment `env` and whether
`cmd.Stderr` was set to the logger. -/
inductive Event
  | infoF (category message : String)
  | runCall (idx : Nat)
  | errorCall (e : GoError)
  | recoverCall (inFlight : Option String)
  | goWatchdog (errorAfter : Nat)
  | goSpawn (group name : String)
  | addFunc (spec : String)
  | execCommand (path : String) (args : List String) (env : List String) (stderrToLogger : Bool)
deriving DecidableEq, Repr

/-- The registry position indices of the `Run()` invocations in a trace. -/
def runCalls : List Event → List Nat
  | [] => []
  | Event.runCall i :: rest => i :: runCalls rest
  | _ :: rest => runCalls rest

/-- A registered task: identity plus `Run()` behaviour, with the optional
Go capability interfaces (`ScheduledTask`, `GoroutineConfigurableTask`,
`ErrorAfterDurationTask`) modelled as optional fields (`none` = the task's
dynamic type does not implement the interface).  `errorAfterDuration` is
in nanoseconds, matching Go's `time.Duration`. -/
structure Task where
  group : String
  name : String
  runResult : RunResult
  schedule : Option String := none
  executeInGoroutine : Option Bool := none
  errorAfterDuration : Option Nat := none
deriving DecidableEq, Repr

/-- The `Config` collaborator: `GetRequiredBool path` returns
`(enabled, err)`, with `err ≠ none` when the path is not defined. -/
def Config := String → Bool × Option GoError

/-- `TaskContainer`: ordered task list, optional config collaborator and
dispatch environment overrides.  The logger and error-handler
collaborators are modelled by the event trace rather than stored. -/
structure TaskContainer where
  tasks : List Task := []
  config : Option Config := none
  dispatchEnvs : List String := []

/-- `New()`: empty registry, default collaborators, no config. -/
def New : TaskContainer := {}

/-- `AddTask` appends to the ordered task list. -/
def AddTask (t : TaskContainer) (task : Task) : TaskContainer :=
  { t with tasks := t.tasks ++ [task] }

/-- `SetConfig`. -/
def SetConfig (t : TaskContainer) (config : Config) : TaskContainer :=
  { t with config := some config }

/-- `SetDispatchEnvironment`. -/
def SetDispatchEnvironment (t : TaskContainer) (envs : List String) : TaskContainer :=
  { t with dispatchEnvs := envs }

/-- `time.Second` in nanoseconds. -/
def second : Nat := 1000000000

/-- The predicate of the lookup loop in `RunTask`:
`task.GetGroup() == group && task.GetName() == name`. -/
def matchesTask (group name : String) (task : Task) : Bool :=
  task.group == group && task.name == name

/-- The loop body of `TaskContainer.RunTask` (src/cli.go lines 156-195):
linear scan over the tasks; on the first match, spawn the watchdog
goroutine when the task implements `ErrorAfterDurationTask`, log the
"Running task" line, invoke `Run()`, log the "Finished" line, and return
`Run()`'s error verbatim.  `idx` is the registry position of the head of
the remaining list.  If `Run()` panics, the panic escapes `RunTask`
(`Except.error`) and the "Finished" line is never logged.  When no task
matches, the `TaskNotFound` sentinel is returned. -/
def runTaskAux (group name : String) : List Task → Nat → Except String (Option GoError) × List Event
  | [], _ => (Except.ok (some GoError.taskNotFound), [])
  | task :: rest, idx =>
    if matchesTask group name task then
      let wd : List Event :=
        match task.errorAfterDuration with
        | some d => [Event.goWatchdog d]
        | none => []
      let runningLog := Event.infoF "CLI" ("Running task (" ++ task.group ++ ":" ++ task.name ++ ")")
      let finishedLog := Event.infoF "CLI" ("Finished running task (" ++ task.group ++ ":" ++ task.name ++ ")")
      match task.runResult with
      | RunResult.ret e => (Except.ok e, wd ++ [runningLog, Event.runCall idx, finishedLog])
      | RunResult.panics m => (Except.error m, wd ++ [runningLog, Event.runCall idx])
    else
      runTaskAux group name rest (idx + 1)

/-- `TaskContainer.RunTask` (src/cli.go lines 156-195). -/
def RunTask (t : TaskContainer) (group name : String) : Except String (Option GoError) × List Event :=
  runTaskAux group name t.tasks 0

/-- The message of the watchdog anomaly report:
`fmt.Errorf("task still running after expected duration: %s:%s %ds", group, name, int(d/time.Second))`. -/
def watchdogReportMsg (group name : String) (errorAfter : Nat) : String :=
  "task still running after expected duration: " ++ group ++ ":" ++ name ++ " "
    ++ toString (errorAfter / second) ++ "s"

/-- The watchdog goroutine's loop (src/cli.go lines 164-182): sleep one
second, add one second to `elapsed`, and once `elapsed` reaches or exceeds
the declared duration, report the anomaly if the running flag still reads
true, then break.  The Go code increments `elapsed` and then tests it; here
the incremented value `elapsed + second` appears directly in the test and in
the flag read.  `running t` is the value the shared running flag holds when
read at absolute time `t` nanoseconds after the goroutine started. -/
def watchdogLoop (errorAfter : Nat) (group name : String) (running : Nat → Bool) (elapsed : Nat) : List Event :=
  if elapsed + second ≥ errorAfter then
    if running (elapsed + second) then
      [Event.errorCall (GoError.errorf (watchdogReportMsg group name errorAfter))]
    else []
  else
    watchdogLoop errorAfter group name running (elapsed + second)
termination_by errorAfter - elapsed
decreasing_by simp only [second] at *; omega

/-- The watchdog goroutine, started with `elapsed = 0`. -/
def watchdog (errorAfter : Nat) (group name : String) (running : Nat → Bool) : List Event :=
  watchdogLoop errorAfter group name running 0

/-- The first point of the watchdog's one-second grid that reaches or
exceeds the declared duration: the accumulated elapsed time at which the
loop performs its single check of the running flag. -/
def firstCrossing (errorAfter : Nat) : Nat :=
  second * max 1 ((errorAfter + second - 1) / second)

/-- The enablement-gate test, as inlined in both `Execute` (src/cli.go
lines 131-138) and `DispatchTasks` (lines 209-214): with a config
collaborator set, query `GetRequiredBool("cbcli.<group>.<name>")` and deny
exactly when the query returns no error and `enabled` is false
(`e == nil && !enabled`). -/
def gateDenies (t : TaskContainer) (group name : String) : Bool :=
  match t.config with
  | none => false
  | some cfg =>
    match cfg ("cbcli." ++ group ++ "." ++ name) with
    | (enabled, none) => !enabled
    | (_, some _) => false

/-- The part of `Execute` after the enablement gate (src/cli.go lines
140-148): run the task; a `TaskNotFound` result is logged at info level and
swallowed (`Execute` then returns nil); any other error is reported through
the ErrorHandler and returned; a panic escapes. -/
def executeLookup (t : TaskContainer) (group name : String) : Except String (Option GoError) × List Event :=
  match RunTask t group name with
  | (Except.error p, evs) => (Except.error p, evs)
  | (Except.ok none, evs) => (Except.ok none, evs)
  | (Except.ok (some e), evs) =>
    if e = GoError.taskNotFound then
      (Except.ok none, evs ++ [Event.infoF "CLI" ("Task " ++ group ++ ":" ++ name ++ " not found")])
    else
      (Except.ok (some e), evs ++ [Event.errorCall e])

/-- `TaskContainer.Execute` (src/cli.go lines 126-154).  `args` is
`os.Args` (program name first); the guard `len(os.Args) > 2` is the
three-or-more-elements pattern.  When the gate denies, the "not enabled"
error is logged and returned without running the task; otherwise the
lookup/run path `executeLookup` is taken.  With fewer arguments, the
"Not enough arguments" line is logged and nil returned. -/
def Execute (t : TaskContainer) (args : List String) : Except String (Option GoError) × List Event :=
  match args with
  | _ :: group :: name :: _ =>
    if gateDenies t group name then
      (Except.ok (some (GoError.errorf ("Task " ++ group ++ ":" ++ name ++ " is not enabled"))),
        [Event.infoF "CLI" ("Task " ++ group ++ ":" ++ name ++ " is not enabled")])
    else
      executeLookup t group name
  | _ => (Except.ok none, [Event.infoF "CLI" "Not enough arguments, expecting: taskGroup taskName"])

/-- The external collaborators used by `DispatchTasks` and its firing
callback: the cron engine's `AddFunc` result per expression string, the
`os.Executable()` result (Go returns a path and an error; on error the
path is its zero value `""`), and the result of `cmd.Run()` as a function
of path, arguments and environment. -/
structure DispatchEnv where
  addFuncResult : String → Option GoError
  osExecutable : String × Option GoError
  cmdRun : String → List String → List String → Option GoError

/-- Whether the firing callback takes the inline-goroutine branch
(src/cli.go lines 217-221): false unless the task implements
`GoroutineConfigurableTask` and `ExecuteInGoroutine()` returns true. -/
def isGoroutineTask (task : Task) : Bool :=
  match task.executeInGoroutine with
  | some b => b
  | none => false

/-- The body of the goroutine spawned for an inline-dispatched task
(src/cli.go lines 223-229).  `t.errors.Recover()` is invoked as an
ordinary statement, not via `defer`, so it executes before `RunTask` with
no panic in flight: Go's `recover()` inside it yields nil
(`recoverCall none`).  Consequently a panic raised later inside `Run()`
finds no deferred recover in this goroutine and escapes, crashing the
process (`Except.error`); a non-panic error from `RunTask` is reported
through the ErrorHandler. -/
def dispatchGoroutineBody (t : TaskContainer) (group name : String) : Except String (List Event) :=
  match RunTask t group name with
  | (Except.error p, _) => Except.error p
  | (Except.ok r, evs) =>
    match r with
    | some e => Except.ok (Event.recoverCall none :: evs ++ [Event.errorCall e])
    | none => Except.ok (Event.recoverCall none :: evs)

/-- The firing callback registered with `crontab.AddFunc` (src/cli.go
lines 215-244): log the "Dispatching" line; in the inline mode spawn the
goroutine whose body is `dispatchGoroutineBody`; otherwise resolve the
executable (reporting a resolution error but continuing with the returned
path), run `exec.Command(executable, group, name)` with
`cmd.Env = t.dispatchEnvs` and `cmd.Stderr = t.logger`, and report a
launch/exit error. -/
def dispatchCallback (t : TaskContainer) (denv : DispatchEnv) (task : Task) : List Event :=
  let dispatchLog := Event.infoF "CLI" ("Dispatching task (" ++ task.group ++ ":" ++ task.name ++ ")")
  if isGoroutineTask task then
    [dispatchLog, Event.goSpawn task.group task.name]
  else
    let executable := denv.osExecutable.1
    let resolutionErrs : List Event :=
      match denv.osExecutable.2 with
      | some e => [Event.errorCall e]
      | none => []
    let args := [task.group, task.name]
    let runErrs : List Event :=
      match denv.cmdRun executable args t.dispatchEnvs with
      | some e => [Event.errorCall e]
      | none => []
    dispatchLog :: resolutionErrs ++ [Event.execCommand executable args t.dispatchEnvs true] ++ runErrs

/-- A sequence of firings: the cron engine invokes one callback per
firing; each callback returns normally, so one firing's outcome never
prevents the next callback from running. -/
def fireSequence (t : TaskContainer) (denv : DispatchEnv) : List Task → List Event
  | [] => []
  | task :: rest => dispatchCallback t denv task ++ fireSequence t denv rest

/-- Result of running `DispatchTasks`: the `AddFunc` calls made (each with
the expression string and the task captured by the callback closure), the
triggers actually registered (those whose `AddFunc` returned no error),
and the registration-time event trace. -/
structure DispatchResult where
  attempts : List (String × Task)
  registered : List (String × Task)
  events : List Event
deriving Repr

/-- The registration loop of `TaskContainer.DispatchTasks` (src/cli.go
lines 200-249): skip tasks that do not implement `ScheduledTask`, tasks
whose schedule is `"manual"` or `""`, and tasks the enablement gate
denies; otherwise call `crontab.AddFunc` with the schedule, reporting a
registration error through the ErrorHandler and continuing with the
remaining tasks. -/
def dispatchAux (t : TaskContainer) (denv : DispatchEnv) : List Task → DispatchResult
  | [] => ⟨[], [], []⟩
  | task :: rest =>
    let r := dispatchAux t denv rest
    match task.schedule with
    | none => r
    | some sched =>
      if sched == "manual" || sched == "" then r
      else if gateDenies t task.group task.name then r
      else
        match denv.addFuncResult sched with
        | some e =>
          ⟨(sched, task) :: r.attempts, r.registered,
            Event.addFunc sched :: Event.errorCall e :: r.events⟩
        | none =>
          ⟨(sched, task) :: r.attempts, (sched, task) :: r.registered,
            Event.addFunc sched :: r.events⟩

/-- `TaskContainer.DispatchTasks` (src/cli.go lines 197-252); the final
`crontab.Start()` is non-blocking and adds no registration-time event. -/
def DispatchTasks (t : TaskContainer) (denv : DispatchEnv) : DispatchResult :=
  dispatchAux t denv t.tasks

/-- Declarative description of which tasks reach the schedule-based part
of the registration loop: the task implements `ScheduledTask` and its
schedule is neither `"manual"` nor `""`. -/
def scheduleAllows (task : Task) : Bool :=
  match task.schedule with
  | none => false
  | some sched => !(sched == "manual" || sched == "")

/-- Declarative description of which tasks `DispatchTasks` calls `AddFunc`
for: the schedule allows it and the enablement gate does not deny it. -/
def shouldAttempt (t : TaskContainer) (task : Task) : Bool :=
  scheduleAllows task && !gateDenies t task.group task.name

end Cbcli

namespace Part0

/-- A task of the older variant (src/unnamed/part_000): the `Task`
interface there makes `GetSchedule` mandatory. -/
structure Task where
  group : String
  name : String
  schedule : String
  runResult : Cbcli.RunResult
deriving DecidableEq, Repr

/-- `TaskContainer` of the older variant: only the task list (logger and
error handler are modelled by the trace; there is no config collaborator
and no dispatch environment). -/
structure TaskContainer where
  tasks : List Task := []

/-- `New()` of the older variant. -/
def New : TaskContainer := {}

/-- `AddTask` of the older variant. -/
def AddTask (t : TaskContainer) (task : Task) : TaskContainer :=
  { t with tasks := t.tasks ++ [task] }

/-- The lookup predicate of the older variant's `RunTask`. -/
def matchesTask (group name : String) (task : Task) : Bool :=
  task.group == group && task.name == name

/-- The loop body of the older variant's `RunTask` (src/unnamed/part_000
lines 99-111): linear scan, log "Running task", invoke `Run()`, log
"Finished", return the error verbatim; `TaskNotFound` when nothing
matches.  No watchdog exists in this variant. -/
def runTaskAux (group name : String) : List Task → Nat → Except String (Option Cbcli.GoError) × List Cbcli.Event
  | [], _ => (Except.ok (some Cbcli.GoError.taskNotFound), [])
  | task :: rest, idx =>
    if matchesTask group name task then
      let runningLog := Cbcli.Event.infoF "CLI" ("Running task (" ++ task.group ++ ":" ++ task.name ++ ")")
      let finishedLog := Cbcli.Event.infoF "CLI" ("Finished running task (" ++ task.group ++ ":" ++ task.name ++ ")")
      match task.runResult with
      | Cbcli.RunResult.ret e => (Except.ok e, [runningLog, Cbcli.Event.runCall idx, finishedLog])
      | Cbcli.RunResult.panics m => (Except.error m, [runningLog, Cbcli.Event.runCall idx])
    else
      runTaskAux group name rest (idx + 1)

/-- The older variant's `RunTask` (src/unnamed/part_000 lines 99-111). -/
def RunTask (t : TaskContainer) (group name : String) : Except String (Option Cbcli.GoError) × List Cbcli.Event :=
  runTaskAux group name t.tasks 0

/-- How the older variant's `Execute` finishes: `os.Exit(code)` or a
normal return of the function's `error` result. -/
inductive ExecOutcome
  | exited (code : Nat)
  | returned (e : Option Cbcli.GoError)
deriving DecidableEq, Repr

/-- The older variant's `Execute` (src/unnamed/part_000 lines 77-97): with
`len(os.Args) > 2`, run the task named by `os.Args[1]`, `os.Args[2]`; on a
`TaskNotFound` result log the "not found" line, on any other error report
it through the ErrorHandler, and in either error case `os.Exit(1)`; on
success `os.Exit(0)`.  With fewer arguments, log "Not enough arguments"
and return nil without exiting. -/
def Execute (t : TaskContainer) (args : List String) : Except String ExecOutcome × List Cbcli.Event :=
  match args with
  | _ :: group :: name :: _ =>
    match RunTask t group name with
    | (Except.error p, evs) => (Except.error p, evs)
    | (Except.ok (some e), evs) =>
      if e = Cbcli.GoError.taskNotFound then
        (Except.ok (ExecOutcome.exited 1),
          evs ++ [Cbcli.Event.infoF "CLI" ("Task " ++ group ++ ":" ++ name ++ " not found")])
      else
        (Except.ok (ExecOutcome.exited 1), evs ++ [Cbcli.Event.errorCall e])
    | (Except.ok none, evs) => (Except.ok (ExecOutcome.exited 0), evs)
  | _ =>
    (Except.ok (ExecOutcome.returned none),
      [Cbcli.Event.infoF "CLI" "Not enough arguments, expecting: taskGroup taskName"])

end Part0

/-! Concrete registries, configs and dispatch environments used to
instantiate the theorems below on closed inputs. -/

/-- Task `sync:copy` whose run fails with "boom". -/
def wtask1 : Cbcli.Task :=
  { group := "sync", name := "copy",
    runResult := Cbcli.RunResult.ret (some (Cbcli.GoError.errorf "boom")) }

/-- One-task registry holding `wtask1`. -/
def wc1 : Cbcli.TaskContainer := Cbcli.AddTask Cbcli.New wtask1

/-- A schedulable succeeding task `reports:daily`. -/
def wtask2 : Cbcli.Task :=
  { group := "reports", name := "daily", runResult := Cbcli.RunResult.ret none,
    schedule := some "0 0 * * *" }

/-- A config collaborator that answers `(false, nil)` on every path. -/
def cfg2deny : Cbcli.Config := fun _ => (false, none)

/-- A config collaborator that errors on every path. -/
def cfg2err : Cbcli.Config := fun _ => (true, some (Cbcli.GoError.errorf "path not defined"))

/-- Registry with `wtask2`, config denying everything. -/
def wc2deny : Cbcli.TaskContainer :=
  Cbcli.SetConfig (Cbcli.AddTask Cbcli.New wtask2) cfg2deny

/-- Registry with `wtask2`, config erroring everywhere. -/
def wc2err : Cbcli.TaskContainer :=
  Cbcli.SetConfig (Cbcli.AddTask Cbcli.New wtask2) cfg2err

/-- A dispatch environment where everything succeeds. -/
def denv2 : Cbcli.DispatchEnv where
  addFuncResult := fun _ => none
  osExecutable := ("/srv/app", none)
  cmdRun := fun _ _ _ => none

/-- Task for the panic scenario: `cache:warm`, inline execution, run
panics with "boom". -/
def wtask3 : Cbcli.Task :=
  { group := "cache", name := "warm", runResult := Cbcli.RunResult.panics "boom",
    executeInGoroutine := some true }

/-- Registry holding `wtask3`. -/
def wc3 : Cbcli.TaskContainer := Cbcli.AddTask Cbcli.New wtask3

/-- Task for the child-process scenario: `reports:daily`, scheduled, no
inline-execution capability. -/
def wtask5 : Cbcli.Task :=
  { group := "reports", name := "daily", runResult := Cbcli.RunResult.ret none,
    schedule := some "0 0 * * *" }

/-- Registry holding `wtask5` with dispatch environment overrides. -/
def wc5 : Cbcli.TaskContainer :=
  Cbcli.SetDispatchEnvironment (Cbcli.AddTask Cbcli.New wtask5) ["MODE=cron"]

/-- Dispatch environment for the child-process scenario: resolution
succeeds, the child exits non-zero. -/
def denv5 : Cbcli.DispatchEnv where
  addFuncResult := fun _ => none
  osExecutable := ("/srv/app", none)
  cmdRun := fun _ _ _ => some (Cbcli.GoError.errorf "exit status 1")

/-- A manual-schedule task. -/
def wtask6a : Cbcli.Task :=
  { group := "g", name := "manualtask", runResult := Cbcli.RunResult.ret none,
    schedule := some "manual" }

/-- A task with a malformed cron expression. -/
def wtask6b : Cbcli.Task :=
  { group := "g", name := "badcron", runResult := Cbcli.RunResult.ret none,
    schedule := some "not a cron" }

/-- A well-scheduled task. -/
def wtask6c : Cbcli.Task :=
  { group := "g", name := "good", runResult := Cbcli.RunResult.ret none,
    schedule := some "* * * * *" }

/-- Registry for the registration scenario: manual, malformed, good. -/
def wc6 : Cbcli.TaskContainer :=
  Cbcli.AddTask (Cbcli.AddTask (Cbcli.AddTask Cbcli.New wtask6a) wtask6b) wtask6c

/-- Dispatch environment for the registration scenario: `AddFunc` rejects
the malformed expression only. -/
def denv6 : Cbcli.DispatchEnv where
  addFuncResult := fun spec =>
    if spec == "not a cron" then some (Cbcli.GoError.errorf "bad spec") else none
  osExecutable := ("/srv/app", none)
  cmdRun := fun _ _ _ => none

/-- First-registered duplicate of `dup:job` (succeeds). -/
def wtask7a : Cbcli.Task :=
  { group := "dup", name := "job", runResult := Cbcli.RunResult.ret none }

/-- Second-registered duplicate of `dup:job` (fails with "late"). -/
def wtask7b : Cbcli.Task :=
  { group := "dup", name := "job",
    runResult := Cbcli.RunResult.ret (some (Cbcli.GoError.errorf "late")) }

/-- Registry with the two duplicates, `wtask7a` registered first. -/
def wc7 : Cbcli.TaskContainer :=
  Cbcli.AddTask (Cbcli.AddTask Cbcli.New wtask7a) wtask7b

/-- Older-variant succeeding task `g:ok`. -/
def wtask8a : Part0.Task :=
  { group := "g", name := "ok", schedule := "manual", runResult := Cbcli.RunResult.ret none }

/-- Older-variant failing task `g:bad`. -/
def wtask8b : Part0.Task :=
  { group := "g", name := "bad", schedule := "manual",
    runResult := Cbcli.RunResult.ret (some (Cbcli.GoError.errorf "oops")) }

/-- Older-variant registry holding `wtask8a` then `wtask8b`. -/
def wc8 : Part0.TaskContainer :=
  Part0.AddTask (Part0.AddTask Part0.New wtask8a) wtask8b

/-- Registry with a single task `only:one`, no config. -/
def wc9 : Cbcli.TaskContainer :=
  Cbcli.AddTask Cbcli.New
    { group := "only", name := "one", runResult := Cbcli.RunResult.ret none }

/-- Task for the failed-resolution scenario. -/
def wtask10 : Cbcli.Task :=
  { group := "reports", name := "daily", runResult := Cbcli.RunResult.ret none,
    schedule := some "0 0 * * *" }

/-- Registry holding `wtask10`. -/
def wc10 : Cbcli.TaskContainer := Cbcli.AddTask Cbcli.New wtask10

/-- Dispatch environment where `os.Executable()` fails (zero-value path)
and the subsequent launch of `""` fails as well. -/
def denv10 : Cbcli.DispatchEnv where
  addFuncResult := fun _ => none
  osExecutable := ("", some (Cbcli.GoError.errorf "readlink failed"))
  cmdRun := fun path _ _ =>
    if path == "" then some (Cbcli.GoError.errorf "fork/exec : no such file or directory")
    else none

/-! Helper lemmas about the lookup loop of `RunTask`. -/

namespace Cbcli

theorem runTaskAux_no_match (group name : String) (l : List Task) (idx : Nat)
    (h : ∀ task ∈ l, matchesTask group name task = false) :
    runTaskAux group name l idx = (Except.ok (some GoError.taskNotFound), []) := by
  induction l generalizing idx with
  | nil => rfl
  | cons hd tl ih =>
    have hhd := h hd (List.mem_cons_self hd tl)
    rw [runTaskAux, if_neg (by simp [hhd])]
    exact ih (idx + 1) (fun task ht => h task (List.mem_cons_of_mem hd ht))

theorem runTaskAux_first (group name : String) (l : List Task) (idx i : Nat) (task : Task)
    (hget : l[i]? = some task) (hm : matchesTask group name task = true)
    (hfirst : ∀ k tk, k < i → l[k]? = some tk → matchesTask group name tk = false) :
    runCalls (runTaskAux group name l idx).2 = [idx + i] ∧
    ∀ e, task.runResult = RunResult.ret e → (runTaskAux group name l idx).1 = Except.ok e := by
  induction l generalizing idx i with
  | nil => simp at hget
  | cons hd tl ih =>
    cases i with
    | zero =>
      have hhd : hd = task := by simpa using hget
      subst hhd
      constructor
      · cases hw : hd.errorAfterDuration <;> cases hrr : hd.runResult <;>
          simp [runTaskAux, hm, hw, hrr, runCalls]
      · intro e he
        cases hw : hd.errorAfterDuration <;>
          simp [runTaskAux, hm, hw, he, runCalls]
    | succ j =>
      have hhd : matchesTask group name hd = false :=
        hfirst 0 hd (Nat.succ_pos j) (by simp)
      simp only [List.getElem?_cons_succ] at hget
      have ihj := ih (idx + 1) j hget
        (fun k tk hk hgk => hfirst (k + 1) tk (Nat.succ_lt_succ hk) (by simpa using hgk))
      have hstep : runTaskAux group name (hd :: tl) idx = runTaskAux group name tl (idx + 1) := by
        rw [runTaskAux, if_neg (by simp [hhd])]
      rw [hstep]
      have harith : idx + 1 + j = idx + (j + 1) := by omega
      rw [← harith]
      exact ihj

theorem runTaskAux_result (group name : String) (l : List Task) (idx : Nat) (e : GoError)
    (h : (runTaskAux group name l idx).1 = Except.ok (some e)) :
    e = GoError.taskNotFound ∨
      ∃ task ∈ l, matchesTask group name task = true ∧
        task.runResult = RunResult.ret (some e) := by
  induction l generalizing idx with
  | nil => left; simpa [runTaskAux] using h.symm
  | cons hd tl ih =>
    by_cases hm : matchesTask group name hd = true
    · rw [runTaskAux, if_pos hm] at h
      cases hw : hd.errorAfterDuration <;> cases hrr : hd.runResult <;>
        simp [hw, hrr] at h
      all_goals
        right
        exact ⟨hd, List.mem_cons_self hd tl, hm, by rw [hrr, h]⟩
    · rw [runTaskAux, if_neg (by simp [hm])] at h
      rcases ih (idx + 1) h with h1 | ⟨task, ht, hmt, hr⟩
      · exact Or.inl h1
      · exact Or.inr ⟨task, List.mem_cons_of_mem hd ht, hmt, hr⟩

theorem exists_first_match (group name : String) (l : List Task) (i : Nat) (task : Task)
    (hget : l[i]? = some task) (hm : matchesTask group name task = true) :
    ∃ k tk, k ≤ i ∧ l[k]? = some tk ∧ matchesTask group name tk = true ∧
      ∀ k' tk', k' < k → l[k']? = some tk' → matchesTask group name tk' = false := by
  have hP : ∃ k, (l[k]?.any (matchesTask group name)) = true := ⟨i, by rw [hget]; simpa using hm⟩
  have hspec := Nat.find_spec hP
  obtain ⟨tk, hg⟩ : ∃ tk, l[Nat.find hP]? = some tk := by
    cases hgg : l[Nat.find hP]? with
    | none => rw [hgg] at hspec; simp at hspec
    | some tk => exact ⟨tk, rfl⟩
  rw [hg] at hspec
  simp only [Option.any_some] at hspec
  refine ⟨Nat.find hP, tk, Nat.find_min' hP (by rw [hget]; simpa using hm), hg, hspec, ?_⟩
  intro k' tk' hk' hg'
  have hmin := Nat.find_min hP hk'
  rw [hg'] at hmin
  simpa using hmin

end Cbcli

namespace Cbcli

theorem watchdogLoop_eq_closed (errorAfter : Nat) (group name : String)
    (running : Nat → Bool) (elapsed : Nat) :
    watchdogLoop errorAfter group name running elapsed =
      if running (elapsed + second * max 1 ((errorAfter - elapsed + second - 1) / second)) then
        [Event.errorCall (GoError.errorf (watchdogReportMsg group name errorAfter))]
      else [] := by
  rw [watchdogLoop]
  by_cases h : errorAfter ≤ elapsed + second
  · rw [if_pos h]
    have h2 : (errorAfter - elapsed + second - 1) / second ≤ 1 := by
      simp only [second] at *; omega
    rw [Nat.max_eq_left h2, Nat.mul_one]
  · rw [if_neg h]
    rw [watchdogLoop_eq_closed errorAfter group name running (elapsed + second)]
    have harg : elapsed + second + second * max 1 ((errorAfter - (elapsed + second) + second - 1) / second)
        = elapsed + second * max 1 ((errorAfter - elapsed + second - 1) / second) := by
      have h3 : 1 ≤ (errorAfter - (elapsed + second) + second - 1) / second := by
        simp only [second] at *; omega
      have h4 : 1 ≤ (errorAfter - elapsed + second - 1) / second := by
        simp only [second] at *; omega
      rw [Nat.max_eq_right h3, Nat.max_eq_right h4]
      simp only [second] at *
      omega
    rw [harg]
termination_by errorAfter - elapsed
decreasing_by simp only [second] at *; omega

end Cbcli

/-! Helper lemmas about the registration loop of `DispatchTasks`. -/

namespace Cbcli

theorem dispatchAux_attempts (t : TaskContainer) (denv : DispatchEnv) (l : List Task) :
    (dispatchAux t denv l).attempts
      = (l.filter (shouldAttempt t)).map (fun task => (task.schedule.getD "", task)) := by
  induction l with
  | nil => rfl
  | cons hd tl ih =>
    rw [List.filter_cons]
    cases hs : hd.schedule with
    | none =>
      have hsa : shouldAttempt t hd = false := by simp [shouldAttempt, scheduleAllows, hs]
      simp [dispatchAux, hs, hsa, ih]
    | some sched =>
      by_cases hms : (sched == "manual" || sched == "") = true
      · have hsa : shouldAttempt t hd = false := by
          simp [shouldAttempt, scheduleAllows, hs, hms]
        simp [dispatchAux, hs, hms, hsa, ih]
      · by_cases hg : gateDenies t hd.group hd.name = true
        · have hsa : shouldAttempt t hd = false := by simp [shouldAttempt, hg]
          simp [dispatchAux, hs, hms, hg, hsa, ih]
        · have hsa : shouldAttempt t hd = true := by
            simp only [shouldAttempt, scheduleAllows, hs, Bool.and_eq_true, Bool.not_eq_true']
            exact ⟨by simpa using hms, by simpa using hg⟩
          cases haf : denv.addFuncResult sched <;>
            simp [dispatchAux, hs, hms, hg, hsa, haf, ih]

theorem dispatchAux_registered (t : TaskContainer) (denv : DispatchEnv) (l : List Task) :
    (dispatchAux t denv l).registered
      = (dispatchAux t denv l).attempts.filter (fun p => (denv.addFuncResult p.1).isNone) := by
  induction l with
  | nil => rfl
  | cons hd tl ih =>
    cases hs : hd.schedule with
    | none => simp [dispatchAux, hs, ih]
    | some sched =>
      by_cases hms : (sched == "manual" || sched == "") = true
      · simp [dispatchAux, hs, hms, ih]
      · by_cases hg : gateDenies t hd.group hd.name = true
        · simp [dispatchAux, hs, hms, hg, ih]
        · cases haf : denv.addFuncResult sched <;>
            simp [dispatchAux, hs, hms, hg, haf, ih, List.filter_cons]

theorem dispatchAux_error_reported (t : TaskContainer) (denv : DispatchEnv) (l : List Task)
    (sched : String) (task : Task) (e : GoError)
    (hp : (sched, task) ∈ (dispatchAux t denv l).attempts)
    (he : denv.addFuncResult sched = some e) :
    Event.errorCall e ∈ (dispatchAux t denv l).events := by
  induction l with
  | nil => simp [dispatchAux] at hp
  | cons hd tl ih =>
    cases hs : hd.schedule with
    | none =>
      rw [dispatchAux] at hp ⊢
      simp only [hs] at hp ⊢
      exact ih hp
    | some s =>
      by_cases hms : (s == "manual" || s == "") = true
      · rw [dispatchAux] at hp ⊢
        simp only [hs, hms, if_true] at hp ⊢
        exact ih hp
      · by_cases hg : gateDenies t hd.group hd.name = true
        · rw [dispatchAux] at hp ⊢
          simp only [hs, hms, hg, if_false, if_true, Bool.false_eq_true] at hp ⊢
          exact ih hp
        · cases haf : denv.addFuncResult s with
          | some e' =>
            rw [dispatchAux] at hp ⊢
            simp only [hs, hms, hg, haf, Bool.false_eq_true, if_false, List.mem_cons] at hp ⊢
            rcases hp with heq | hp'
            · right; left
              have hse : sched = s := (Prod.mk.injEq _ _ _ _ ▸ heq).1
              rw [hse] at he
              rw [haf] at he
              injection he with he'
              rw [he']
            · right; right; exact ih hp'
          | none =>
            rw [dispatchAux] at hp ⊢
            simp only [hs, hms, hg, haf, Bool.false_eq_true, if_false, List.mem_cons] at hp ⊢
            rcases hp with heq | hp'
            · have hse : sched = s := (Prod.mk.injEq _ _ _ _ ▸ heq).1
              rw [hse, haf] at he
              cases he
            · right; exact ih hp'

end Cbcli

/-! Helper lemmas for the older variant's lookup loop. -/

namespace Part0

theorem part0_runTaskAux_no_match (group name : String) (l : List Task) (idx : Nat)
    (h : ∀ task ∈ l, matchesTask group name task = false) :
    runTaskAux group name l idx = (Except.ok (some Cbcli.GoError.taskNotFound), []) := by
  induction l generalizing idx with
  | nil => rfl
  | cons hd tl ih =>
    have hhd := h hd (List.mem_cons_self hd tl)
    rw [runTaskAux, if_neg (by simp [hhd])]
    exact ih (idx + 1) (fun task ht => h task (List.mem_cons_of_mem hd ht))

theorem part0_runTaskAux_first (group name : String) (l : List Task) (idx i : Nat) (task : Task)
    (hget : l[i]? = some task) (hm : matchesTask group name task = true)
    (hfirst : ∀ k tk, k < i → l[k]? = some tk → matchesTask group name tk = false) :
    Cbcli.runCalls (runTaskAux group name l idx).2 = [idx + i] ∧
    ∀ e, task.runResult = Cbcli.RunResult.ret e →
      (runTaskAux group name l idx).1 = Except.ok e := by
  induction l generalizing idx i with
  | nil => simp at hget
  | cons hd tl ih =>
    cases i with
    | zero =>
      have hhd : hd = task := by simpa using hget
      subst hhd
      constructor
      · cases hrr : hd.runResult <;>
          simp [runTaskAux, hm, hrr, Cbcli.runCalls]
      · intro e he
        simp [runTaskAux, hm, he, Cbcli.runCalls]
    | succ j =>
      have hhd : matchesTask group name hd = false :=
        hfirst 0 hd (Nat.succ_pos j) (by simp)
      simp only [List.getElem?_cons_succ] at hget
      have ihj := ih (idx + 1) j hget
        (fun k tk hk hgk => hfirst (k + 1) tk (Nat.succ_lt_succ hk) (by simpa using hgk))
      have hstep : runTaskAux group name (hd :: tl) idx = runTaskAux group name tl (idx + 1) := by
        rw [runTaskAux, if_neg (by simp [hhd])]
      rw [hstep]
      have harith : idx + 1 + j = idx + (j + 1) := by omega
      rw [← harith]
      exact ihj

end Part0

/-! Claim theorems. -/

/-- C1: for every registered task with identity (g,n), `RunTask(g,n)`
invokes exactly one `run()` call, on the first task in registration order
whose group and name both match, and returns `run()`'s result (success or
error) unchanged; for a (g,n) matching no registered task it returns the
`TaskNotFound` sentinel and invokes `run()` on no task. -/
theorem runTask_first_match_runs_once (t : Cbcli.TaskContainer) (group name : String) :
    (∀ i task, t.tasks[i]? = some task → Cbcli.matchesTask group name task = true →
      (∀ k tk, k < i → t.tasks[k]? = some tk → Cbcli.matchesTask group name tk = false) →
      Cbcli.runCalls (Cbcli.RunTask t group name).2 = [i] ∧
      ∀ e, task.runResult = Cbcli.RunResult.ret e →
        (Cbcli.RunTask t group name).1 = Except.ok e) ∧
    ((∀ task ∈ t.tasks, Cbcli.matchesTask group name task = false) →
      Cbcli.RunTask t group name = (Except.ok (some Cbcli.GoError.taskNotFound), [])) := by
  constructor
  · intro i task hget hm hfirst
    have h := Cbcli.runTaskAux_first group name t.tasks 0 i task hget hm hfirst
    rw [Cbcli.RunTask]
    simpa using h
  · intro h
    rw [Cbcli.RunTask]
    exact Cbcli.runTaskAux_no_match group name t.tasks 0 h

theorem runTask_first_match_runs_once_witness :
    Cbcli.runCalls (Cbcli.RunTask wc1 "sync" "copy").2 = [0] ∧
    (Cbcli.RunTask wc1 "sync" "copy").1 =
      Except.ok (some (Cbcli.GoError.errorf "boom")) := by
  have h := (runTask_first_match_runs_once wc1 "sync" "copy").1 0 wtask1 rfl (by decide)
    (fun k tk hk _ => absurd hk (Nat.not_lt_zero k))
  exact ⟨h.1, h.2 (some (Cbcli.GoError.errorf "boom")) rfl⟩

/-- C7: for every pair of registered tasks sharing the same (group, name),
`RunTask` resolves to, and runs, the task that was registered first: the
single `run()` call goes to an index no later than the earlier duplicate,
in particular never to the later one. -/
theorem runTask_duplicate_first_registered_wins (t : Cbcli.TaskContainer) (group name : String)
    (i j : Nat) (ti tj : Cbcli.Task)
    (hi : t.tasks[i]? = some ti) (hj : t.tasks[j]? = some tj)
    (hmi : Cbcli.matchesTask group name ti = true)
    (hmj : Cbcli.matchesTask group name tj = true)
    (hij : i < j) :
    ∃ k tk, k ≤ i ∧ k ≠ j ∧ t.tasks[k]? = some tk ∧
      Cbcli.matchesTask group name tk = true ∧
      Cbcli.runCalls (Cbcli.RunTask t group name).2 = [k] ∧
      ∀ e, tk.runResult = Cbcli.RunResult.ret e →
        (Cbcli.RunTask t group name).1 = Except.ok e := by
  obtain ⟨k, tk, hk, hget, hm, hfirst⟩ :=
    Cbcli.exists_first_match group name t.tasks i ti hi hmi
  have h := Cbcli.runTaskAux_first group name t.tasks 0 k tk hget hm hfirst
  refine ⟨k, tk, hk, by omega, hget, hm, ?_, ?_⟩
  · rw [Cbcli.RunTask]; simpa using h.1
  · intro e he; rw [Cbcli.RunTask]; simpa using h.2 e he

theorem runTask_duplicate_first_registered_wins_witness :
    Cbcli.runCalls (Cbcli.RunTask wc7 "dup" "job").2 = [0] ∧
    (Cbcli.RunTask wc7 "dup" "job").1 = Except.ok none := by
  obtain ⟨k, tk, hk, hkj, hget, hm, hrun, hres⟩ :=
    runTask_duplicate_first_registered_wins wc7 "dup" "job" 0 1 wtask7a wtask7b
      rfl rfl (by decide) (by decide) Nat.zero_lt_one
  have hk0 : k = 0 := Nat.le_zero.mp hk
  subst hk0
  have h0 : wc7.tasks[0]? = some wtask7a := rfl
  rw [h0] at hget
  injection hget with htk
  subst htk
  exact ⟨hrun, hres none rfl⟩

/-- C4: the watchdog observer accumulates elapsed time in fixed one-second
sleep increments and performs a single check when the accumulated time
first reaches or exceeds the declared threshold: if the task is then still
marked running it reports exactly one anomaly carrying the group, name and
threshold in seconds, otherwise it reports nothing; either way it stops
(the trace never holds a second report). -/
theorem watchdog_single_shot_spec (errorAfter : Nat) (group name : String)
    (running : Nat → Bool) :
    Cbcli.watchdog errorAfter group name running =
      (if running (Cbcli.firstCrossing errorAfter) then
        [Cbcli.Event.errorCall (Cbcli.GoError.errorf
          (Cbcli.watchdogReportMsg group name errorAfter))]
      else []) ∧
    (Cbcli.watchdog errorAfter group name running).length ≤ 1 := by
  have h := Cbcli.watchdogLoop_eq_closed errorAfter group name running 0
  have hfc : (0 : Nat) + Cbcli.second * max 1 ((errorAfter - 0 + Cbcli.second - 1) / Cbcli.second)
      = Cbcli.firstCrossing errorAfter := by
    simp [Cbcli.firstCrossing]
  constructor
  · rw [Cbcli.watchdog, h, hfc]
  · rw [Cbcli.watchdog, h]
    cases running (0 + Cbcli.second * max 1 ((errorAfter - 0 + Cbcli.second - 1) / Cbcli.second)) <;>
      simp

/-- C2: with a config collaborator set, both `Execute` and dispatch
registration query `GetRequiredBool("cbcli.<group>.<name>")`; a successful
query returning false makes `Execute` return the "not enabled" error
without any `run()` call and excludes the task from trigger registration;
a failing query lets the task proceed exactly as if enabled; with no
config collaborator every task is unconditionally enabled. -/
theorem enablement_gate_policy (t : Cbcli.TaskContainer) (prog group name : String)
    (rest : List String) (denv : Cbcli.DispatchEnv) (task : Cbcli.Task) :
    ((Cbcli.DispatchTasks t denv).attempts.map Prod.snd
        = t.tasks.filter (Cbcli.shouldAttempt t)) ∧
    (∀ cfg, t.config = some cfg →
      cfg ("cbcli." ++ group ++ "." ++ name) = (false, none) →
      Cbcli.Execute t (prog :: group :: name :: rest) =
        (Except.ok (some (Cbcli.GoError.errorf
            ("Task " ++ group ++ ":" ++ name ++ " is not enabled"))),
          [Cbcli.Event.infoF "CLI" ("Task " ++ group ++ ":" ++ name ++ " is not enabled")]) ∧
      Cbcli.runCalls (Cbcli.Execute t (prog :: group :: name :: rest)).2 = []) ∧
    (∀ cfg, t.config = some cfg →
      cfg ("cbcli." ++ task.group ++ "." ++ task.name) = (false, none) →
      Cbcli.shouldAttempt t task = false) ∧
    (∀ cfg b e, t.config = some cfg →
      cfg ("cbcli." ++ group ++ "." ++ name) = (b, some e) →
      Cbcli.Execute t (prog :: group :: name :: rest) = Cbcli.executeLookup t group name) ∧
    (∀ cfg b e, t.config = some cfg →
      cfg ("cbcli." ++ task.group ++ "." ++ task.name) = (b, some e) →
      Cbcli.shouldAttempt t task = Cbcli.scheduleAllows task) ∧
    (t.config = none →
      Cbcli.Execute t (prog :: group :: name :: rest) = Cbcli.executeLookup t group name ∧
      Cbcli.shouldAttempt t task = Cbcli.scheduleAllows task) := by
  refine ⟨?_, ?_, ?_, ?_, ?_, ?_⟩
  · rw [Cbcli.DispatchTasks, Cbcli.dispatchAux_attempts, List.map_map]
    have hcomp : (Prod.snd ∘ fun task : Cbcli.Task => (task.schedule.getD "", task)) = id := rfl
    rw [hcomp, List.map_id]
  · intro cfg hcfg hpath
    have hgate : Cbcli.gateDenies t group name = true := by
      simp [Cbcli.gateDenies, hcfg, hpath]
    constructor
    · simp [Cbcli.Execute, hgate]
    · simp [Cbcli.Execute, hgate, Cbcli.runCalls]
  · intro cfg hcfg hpath
    have hgate : Cbcli.gateDenies t task.group task.name = true := by
      simp [Cbcli.gateDenies, hcfg, hpath]
    simp [Cbcli.shouldAttempt, hgate]
  · intro cfg b e hcfg hpath
    have hgate : Cbcli.gateDenies t group name = false := by
      simp [Cbcli.gateDenies, hcfg, hpath]
    simp [Cbcli.Execute, hgate]
  · intro cfg b e hcfg hpath
    have hgate : Cbcli.gateDenies t task.group task.name = false := by
      simp [Cbcli.gateDenies, hcfg, hpath]
    simp [Cbcli.shouldAttempt, hgate]
  · intro hcfg
    have hgate : ∀ g n, Cbcli.gateDenies t g n = false := by
      intro g n; simp [Cbcli.gateDenies, hcfg]
    exact ⟨by simp [Cbcli.Execute, hgate], by simp [Cbcli.shouldAttempt, hgate]⟩

theorem enablement_gate_policy_witness :
    Cbcli.Execute wc2deny ["app", "reports", "daily"] =
      (Except.ok (some (Cbcli.GoError.errorf "Task reports:daily is not enabled")),
        [Cbcli.Event.infoF "CLI" "Task reports:daily is not enabled"]) ∧
    Cbcli.shouldAttempt wc2deny wtask2 = false ∧
    Cbcli.Execute wc2err ["app", "reports", "daily"] =
      Cbcli.executeLookup wc2err "reports" "daily" := by
  obtain ⟨-, hdenyE, hdenyD, -, -, -⟩ :=
    enablement_gate_policy wc2deny "app" "reports" "daily" [] denv2 wtask2
  obtain ⟨-, -, -, herrE, -, -⟩ :=
    enablement_gate_policy wc2err "app" "reports" "daily" [] denv2 wtask2
  refine ⟨?_, hdenyD cfg2deny rfl rfl, ?_⟩
  · have h := (hdenyE cfg2deny rfl rfl).1
    simpa using h
  · exact herrE cfg2err true (Cbcli.GoError.errorf "path not defined") rfl rfl

/-- C9: in the non-exiting variant, `Execute` returns nil when the
requested (group, name) matches no registered task — the `TaskNotFound`
sentinel is logged at info level and swallowed — and returns a non-nil
error only for the not-enabled case or for a found task whose `run()`
returned an error other than the sentinel. -/
theorem execute_swallows_not_found (t : Cbcli.TaskContainer) (prog group name : String)
    (rest : List String) :
    (Cbcli.gateDenies t group name = false →
      (∀ task ∈ t.tasks, Cbcli.matchesTask group name task = false) →
      Cbcli.Execute t (prog :: group :: name :: rest) =
        (Except.ok none,
          [Cbcli.Event.infoF "CLI" ("Task " ++ group ++ ":" ++ name ++ " not found")])) ∧
    (∀ e, (Cbcli.Execute t (prog :: group :: name :: rest)).1 = Except.ok (some e) →
      (Cbcli.gateDenies t group name = true ∧
        e = Cbcli.GoError.errorf ("Task " ++ group ++ ":" ++ name ++ " is not enabled")) ∨
      (e ≠ Cbcli.GoError.taskNotFound ∧
        ∃ task ∈ t.tasks, Cbcli.matchesTask group name task = true ∧
          task.runResult = Cbcli.RunResult.ret (some e))) := by
  constructor
  · intro hgate hnone
    have hrt : Cbcli.RunTask t group name = (Except.ok (some Cbcli.GoError.taskNotFound), []) := by
      rw [Cbcli.RunTask]
      exact Cbcli.runTaskAux_no_match group name t.tasks 0 hnone
    simp [Cbcli.Execute, hgate, Cbcli.executeLookup, hrt]
  · intro e h
    by_cases hgate : Cbcli.gateDenies t group name = true
    · left
      refine ⟨hgate, ?_⟩
      simp only [Cbcli.Execute, hgate, if_true] at h
      simp at h
      exact h.symm
    · right
      have hgf : Cbcli.gateDenies t group name = false := by simpa using hgate
      simp only [Cbcli.Execute, hgf, Bool.false_eq_true, if_false] at h
      rcases hrt : Cbcli.RunTask t group name with ⟨r, evs⟩
      cases r with
      | error p => simp [Cbcli.executeLookup, hrt] at h
      | ok ro =>
        cases ro with
        | none => simp [Cbcli.executeLookup, hrt] at h
        | some e' =>
          by_cases he' : e' = Cbcli.GoError.taskNotFound
          · simp [Cbcli.executeLookup, hrt, he'] at h
          · simp only [Cbcli.executeLookup, hrt, he', if_neg] at h
            simp at h
            subst h
            have hres := Cbcli.runTaskAux_result group name t.tasks 0 e'
              (by rw [show Cbcli.runTaskAux group name t.tasks 0
                      = (Except.ok (some e'), evs) from hrt])
            rcases hres with h1 | h2
            · exact absurd h1 he'
            · exact ⟨he', h2⟩

theorem execute_swallows_not_found_witness :
    Cbcli.Execute wc9 ["app", "other", "x"] =
      (Except.ok none, [Cbcli.Event.infoF "CLI" "Task other:x not found"]) := by
  have h := (execute_swallows_not_found wc9 "app" "other" "x" []).1 rfl (by decide)
  simpa using h

/-- C5: for a scheduled task not declaring inline execution, each firing
logs the dispatch, runs the resolved executable synchronously as a child
process with the task's group and name as arguments and the configured
dispatch environment, routes the child's standard error through the
logger, reports a non-zero exit through the ErrorHandler, and never
prevents subsequent firings: a firing sequence is exactly the
concatenation of the individual callback traces. -/
theorem dispatch_child_process_spec (t : Cbcli.TaskContainer) (denv : Cbcli.DispatchEnv)
    (task : Cbcli.Task) (path : String)
    (hg : Cbcli.isGoroutineTask task = false)
    (hexe : denv.osExecutable = (path, none)) :
    Cbcli.dispatchCallback t denv task =
      Cbcli.Event.infoF "CLI" ("Dispatching task (" ++ task.group ++ ":" ++ task.name ++ ")")
        :: Cbcli.Event.execCommand path [task.group, task.name] t.dispatchEnvs true
        :: (match denv.cmdRun path [task.group, task.name] t.dispatchEnvs with
            | some e => [Cbcli.Event.errorCall e]
            | none => []) ∧
    (∀ tasks, Cbcli.fireSequence t denv tasks
        = (tasks.map (Cbcli.dispatchCallback t denv)).flatten) := by
  constructor
  · cases hrun : denv.cmdRun path [task.group, task.name] t.dispatchEnvs <;>
      simp [Cbcli.dispatchCallback, hg, hexe, hrun]
  · intro tasks
    induction tasks with
    | nil => rfl
    | cons a l ih => simp [Cbcli.fireSequence, ih]

theorem dispatch_child_process_spec_witness :
    Cbcli.dispatchCallback wc5 denv5 wtask5 =
      [Cbcli.Event.infoF "CLI" "Dispatching task (reports:daily)",
       Cbcli.Event.execCommand "/srv/app" ["reports", "daily"] ["MODE=cron"] true,
       Cbcli.Event.errorCall (Cbcli.GoError.errorf "exit status 1")] := by
  have h := (dispatch_child_process_spec wc5 denv5 wtask5 "/srv/app" rfl rfl).1
  simpa using h

/-- C6: `DispatchTasks` calls `AddFunc` for a task exactly when the task
declares the schedule capability with a schedule other than `""` and
`"manual"` and the enablement gate does not deny it; the trigger is
actually registered exactly when that `AddFunc` call succeeds, and a
failing `AddFunc` (malformed expression) has its error reported through
the ErrorHandler at registration time while the remaining tasks are still
processed (the attempt list is unaffected by earlier failures). -/
theorem dispatch_registration_spec (t : Cbcli.TaskContainer) (denv : Cbcli.DispatchEnv) :
    (Cbcli.DispatchTasks t denv).attempts
      = (t.tasks.filter (Cbcli.shouldAttempt t)).map (fun task => (task.schedule.getD "", task)) ∧
    (Cbcli.DispatchTasks t denv).registered
      = (Cbcli.DispatchTasks t denv).attempts.filter (fun p => (denv.addFuncResult p.1).isNone) ∧
    (∀ sched task e, (sched, task) ∈ (Cbcli.DispatchTasks t denv).attempts →
      denv.addFuncResult sched = some e →
      Cbcli.Event.errorCall e ∈ (Cbcli.DispatchTasks t denv).events) := by
  refine ⟨Cbcli.dispatchAux_attempts t denv t.tasks,
    Cbcli.dispatchAux_registered t denv t.tasks,
    fun sched task e hp he =>
      Cbcli.dispatchAux_error_reported t denv t.tasks sched task e hp he⟩

theorem dispatch_registration_spec_witness :
    Cbcli.Event.errorCall (Cbcli.GoError.errorf "bad spec")
        ∈ (Cbcli.DispatchTasks wc6 denv6).events ∧
    (Cbcli.DispatchTasks wc6 denv6).attempts.map Prod.snd = [wtask6b, wtask6c] ∧
    (Cbcli.DispatchTasks wc6 denv6).registered = [("* * * * *", wtask6c)] := by
  have h := dispatch_registration_spec wc6 denv6
  exact ⟨h.2.2 "not a cron" wtask6b (Cbcli.GoError.errorf "bad spec") (by decide) rfl,
    by decide, by decide⟩

/-- C10: in the out-of-process dispatch path, a failed resolution of the
current executable is reported through the ErrorHandler but does not abort
the firing: the callback still constructs and runs the child-process
command with the zero-value executable path, and the resulting launch
failure is reported as a second error. -/
theorem dispatch_executable_failure_two_errors (t : Cbcli.TaskContainer)
    (denv : Cbcli.DispatchEnv) (task : Cbcli.Task) (e1 e2 : Cbcli.GoError)
    (hg : Cbcli.isGoroutineTask task = false)
    (hexe : denv.osExecutable = ("", some e1))
    (hrun : denv.cmdRun "" [task.group, task.name] t.dispatchEnvs = some e2) :
    Cbcli.dispatchCallback t denv task =
      [Cbcli.Event.infoF "CLI" ("Dispatching task (" ++ task.group ++ ":" ++ task.name ++ ")"),
       Cbcli.Event.errorCall e1,
       Cbcli.Event.execCommand "" [task.group, task.name] t.dispatchEnvs true,
       Cbcli.Event.errorCall e2] := by
  simp [Cbcli.dispatchCallback, hg, hexe, hrun]

theorem dispatch_executable_failure_two_errors_witness :
    Cbcli.dispatchCallback wc10 denv10 wtask10 =
      [Cbcli.Event.infoF "CLI" "Dispatching task (reports:daily)",
       Cbcli.Event.errorCall (Cbcli.GoError.errorf "readlink failed"),
       Cbcli.Event.execCommand "" ["reports", "daily"] [] true,
       Cbcli.Event.errorCall (Cbcli.GoError.errorf "fork/exec : no such file or directory")] := by
  have h := dispatch_executable_failure_two_errors wc10 denv10 wtask10
    (Cbcli.GoError.errorf "readlink failed")
    (Cbcli.GoError.errorf "fork/exec : no such file or directory") rfl rfl rfl
  simpa using h

/-- C3 (code bug): the claim states that an inline-dispatched firing
installs a panic recovery barrier before calling `RunTask`, so a panic in
the task's `run()` is recovered and reported; in the code the goroutine
calls `t.errors.Recover()` as an ordinary statement instead of deferring
it, so `recover()` executes before the panic exists and the panic raised
inside `run()` escapes the goroutine: on the task `cache:warm` whose run
panics with "boom", the goroutine body ends in an unrecovered panic
(modelled by `Except.error "boom"`), crashing the process. -/
theorem dispatch_goroutine_panic_crashes :
    Cbcli.isGoroutineTask wtask3 = true ∧
    Cbcli.dispatchGoroutineBody wc3 "cache" "warm" = Except.error "boom" := by
  exact ⟨rfl, rfl⟩

/-- C8: the older (exiting) variant's `Execute`, invoked with fewer than
two positional arguments, logs the "not enough arguments" line, runs no
task and returns without exiting; with a group and name it terminates the
process with exit code 0 on task success and exit code 1 on task-not-found
or task failure. -/
theorem execute_exit_codes_spec (t : Part0.TaskContainer) (args : List String)
    (prog group name : String) (rest : List String) :
    (args.length ≤ 2 →
      Part0.Execute t args =
        (Except.ok (Part0.ExecOutcome.returned none),
          [Cbcli.Event.infoF "CLI" "Not enough arguments, expecting: taskGroup taskName"]) ∧
      Cbcli.runCalls (Part0.Execute t args).2 = []) ∧
    (∀ (i : Nat) (task : Part0.Task), t.tasks[i]? = some task →
      Part0.matchesTask group name task = true →
      (∀ (k : Nat) (tk : Part0.Task), k < i → t.tasks[k]? = some tk →
        Part0.matchesTask group name tk = false) →
      (task.runResult = Cbcli.RunResult.ret none →
        (Part0.Execute t (prog :: group :: name :: rest)).1 =
          Except.ok (Part0.ExecOutcome.exited 0)) ∧
      (∀ e, task.runResult = Cbcli.RunResult.ret (some e) →
        (Part0.Execute t (prog :: group :: name :: rest)).1 =
          Except.ok (Part0.ExecOutcome.exited 1))) ∧
    ((∀ task ∈ t.tasks, Part0.matchesTask group name task = false) →
      (Part0.Execute t (prog :: group :: name :: rest)).1 =
        Except.ok (Part0.ExecOutcome.exited 1)) := by
  refine ⟨?_, ?_, ?_⟩
  · intro hlen
    rcases args with _ | ⟨a, _ | ⟨b, _ | ⟨c, rest'⟩⟩⟩
    · exact ⟨rfl, rfl⟩
    · exact ⟨rfl, rfl⟩
    · exact ⟨rfl, rfl⟩
    · simp at hlen
  · intro i task hget hm hfirst
    have h := Part0.part0_runTaskAux_first group name t.tasks 0 i task hget hm hfirst
    constructor
    · intro hret
      have hres : (Part0.RunTask t group name).1 = Except.ok none := h.2 none hret
      rcases hrt : Part0.RunTask t group name with ⟨r, evs⟩
      have hr : r = Except.ok none := by rw [hrt] at hres; exact hres
      subst hr
      simp [Part0.Execute, hrt]
    · intro e hret
      have hres : (Part0.RunTask t group name).1 = Except.ok (some e) := h.2 (some e) hret
      rcases hrt : Part0.RunTask t group name with ⟨r, evs⟩
      have hr : r = Except.ok (some e) := by rw [hrt] at hres; exact hres
      subst hr
      by_cases he : e = Cbcli.GoError.taskNotFound <;> simp [Part0.Execute, hrt, he]
  · intro hnone
    have hrt : Part0.RunTask t group name
        = (Except.ok (some Cbcli.GoError.taskNotFound), []) := by
      rw [Part0.RunTask]
      exact Part0.part0_runTaskAux_no_match group name t.tasks 0 hnone
    simp [Part0.Execute, hrt]

theorem execute_exit_codes_spec_witness :
    Part0.Execute wc8 ["app"] =
      (Except.ok (Part0.ExecOutcome.returned none),
        [Cbcli.Event.infoF "CLI" "Not enough arguments, expecting: taskGroup taskName"]) ∧
    (Part0.Execute wc8 ["app", "g", "bad"]).1 = Except.ok (Part0.ExecOutcome.exited 1) ∧
    (Part0.Execute wc8 ["app", "g", "ok"]).1 = Except.ok (Part0.ExecOutcome.exited 0) := by
  obtain ⟨hfew, hbad, -⟩ := execute_exit_codes_spec wc8 ["app"] "app" "g" "bad" []
  obtain ⟨-, hok, -⟩ := execute_exit_codes_spec wc8 ["app"] "app" "g" "ok" []
  refine ⟨(hfew (by decide)).1, ?_, ?_⟩
  · exact (hbad 1 wtask8b rfl (by decide)
      (by
        intro k tk hk hgk
        have hk0 : k = 0 := by omega
        subst hk0
        have h0 : wc8.tasks[0]? = some wtask8a := rfl
        rw [h0] at hgk
        injection hgk with htk
        subst htk
        decide)).2 (Cbcli.GoError.errorf "oops") rfl
  · exact (hok 0 wtask8a rfl (by decide)
      (fun k tk hk _ => absurd hk (Nat.not_lt_zero k))).1 rfl
